/-
Verification of the analog-gauge reading core of `image_to_sensor_cv`
(`src/image_processing_simple.py`, class `SimpleAnalogGaugeProcessor`).

The Python code is shallowly embedded over exact rationals:
* brightness values, scores and angles are `ℚ` (the Python code computes with
  IEEE doubles; all quantities relevant to the proved statements are either
  exactly representable or far from any decision boundary, as noted at each
  definition);
* Python `int(x)` (truncation toward zero) is `pyInt`;
* Python `x % m` on floats (sign follows the divisor) is `pyMod`;
* Python `//` on ints (floor division) is `Int.fdiv`;
* Python `range(a, b, s)` (s > 0) is `rangeStep`;
* the trigonometric sampling `math.cos(math.radians θ)` /
  `math.sin(math.radians θ)` is kept as an explicit function parameter
  `cosD sinD : ℚ → ℚ` (resp. `cosA sinA : ℕ → ℕ → ℚ` for the perimeter
  sampling, as a function of the sample index and the sample count), so that
  theorems quantify over every possible sampling; concrete evaluations
  instantiate them with `tblCos`/`tblSin`, whose entries are the exact dyadic
  rational values of the corresponding IEEE-double computations.
-/
import Mathlib

namespace GaugeCV

/-- Python `int(q)`: truncation toward zero. -/
def pyInt (q : ℚ) : ℤ := if q < 0 then ⌈q⌉ else ⌊q⌋

/-- Python `a % b` on floats for `b > 0`: the representative of `a` modulo `b`
with the sign of `b` (`a - b * ⌊a / b⌋`). -/
def pyMod (a b : ℚ) : ℚ := a - b * ⌊a / b⌋

/-- Python `range(start, stop, step)` for `step > 0`, as a list of integers. -/
def rangeStep (start stop step : ℤ) : List ℤ :=
  (List.range (if start < stop then ((stop - start - 1).toNat / step.toNat + 1) else 0)).map
    (fun i => start + step * (i : ℤ))

/-- The calibration configuration consumed by `_angle_to_value`
(`self.config["min_angle_hours"]`, … in the source). -/
structure Calibration where
  minAngleHours : ℚ
  maxAngleHours : ℚ
  minValue : ℚ
  maxValue : ℚ
deriving DecidableEq

/-- Embedding of `SimpleAnalogGaugeProcessor._angle_to_value`
(src/image_processing_simple.py lines 577-633).  The input `angle` is the
needle angle in mathematical convention; hour-to-degree conversion, the
clock-convention conversion `(90 - angle) % 360`, the wrap-around branch
(`min_angle_deg > max_angle_deg`), the degenerate-span early return, the
linear map and the final clamp are translated line by line. -/
def angleToValue (c : Calibration) (angle : ℚ) : ℚ :=
  let minAngleDeg := c.minAngleHours * 30
  let maxAngleDeg := c.maxAngleHours * 30
  let minValue := c.minValue
  let maxValue := c.maxValue
  let clockAngle := pyMod (90 - angle) 360
  let angleNormalized :=
    if maxAngleDeg < minAngleDeg then
      if minAngleDeg ≤ clockAngle then clockAngle - minAngleDeg
      else (360 - minAngleDeg) + clockAngle
    else clockAngle - minAngleDeg
  let totalRange :=
    if maxAngleDeg < minAngleDeg then (360 - minAngleDeg) + maxAngleDeg
    else maxAngleDeg - minAngleDeg
  if totalRange = 0 then minValue
  else
    let valueRange := maxValue - minValue
    let newValue := (angleNormalized / totalRange) * valueRange + minValue
    max minValue (min maxValue newValue)

/-- The `total_range` quantity computed inside `_angle_to_value` (lines
600-614), exposed so that theorems can hypothesise on it. -/
def totalRangeOf (c : Calibration) : ℚ :=
  let minAngleDeg := c.minAngleHours * 30
  let maxAngleDeg := c.maxAngleHours * 30
  if maxAngleDeg < minAngleDeg then (360 - minAngleDeg) + maxAngleDeg
  else maxAngleDeg - minAngleDeg

/-- The `clock_angle` quantity computed inside `_angle_to_value` (line 596). -/
def clockAngleOf (angle : ℚ) : ℚ := pyMod (90 - angle) 360

/-- The `angle_normalized` quantity computed inside `_angle_to_value` (lines
600-614), exposed so that theorems can refer to it. -/
def normalizedOf (c : Calibration) (angle : ℚ) : ℚ :=
  let minAngleDeg := c.minAngleHours * 30
  let maxAngleDeg := c.maxAngleHours * 30
  let clockAngle := clockAngleOf angle
  if maxAngleDeg < minAngleDeg then
    if minAngleDeg ≤ clockAngle then clockAngle - minAngleDeg
    else (360 - minAngleDeg) + clockAngle
  else clockAngle - minAngleDeg

/-- C2: the spec's wrap-around concrete vector.  With calibration
`minAngleHours = 7, maxAngleHours = 5, minValue = 0, maxValue = 6` and math
angle 150°, the clock angle is 300°, the bounds are 210°/150° (wrapped), the
normalized angle is 90°, the total range is 300°, and the mapped value is
exactly 9/5 = 1.8 (hence within 1e-6 of 1.8). -/
theorem C2_wraparound_vector :
    clockAngleOf 150 = 300 ∧
    (Calibration.mk 7 5 0 6).minAngleHours * 30 = 210 ∧
    (Calibration.mk 7 5 0 6).maxAngleHours * 30 = 150 ∧
    totalRangeOf (Calibration.mk 7 5 0 6) = 300 ∧
    angleToValue (Calibration.mk 7 5 0 6) 150 = 9 / 5 ∧
    |angleToValue (Calibration.mk 7 5 0 6) 150 - 9 / 5| ≤ 1 / 1000000 := by
  refine ⟨?_, by norm_num, by norm_num, ?_, ?_, ?_⟩ <;>
    simp only [clockAngleOf, totalRangeOf, angleToValue, pyMod] <;> norm_num

/-- The grayscale brightness field (`gray_array` in the source): a
`width × height` grid of brightness samples; `pix x y` is the sample in
column `x`, row `y` (the source indexes `gray_array[y, x]`), with origin
top-left and Y increasing downward. -/
structure Field where
  width : ℤ
  height : ℤ
  pix : ℤ → ℤ → ℚ

/-- The bounds check `0 <= x < width and 0 <= y < height` that guards every
pixel access in the source. -/
def inBounds (f : Field) (x y : ℤ) : Bool :=
  decide (0 ≤ x) && decide (x < f.width) && decide (0 ≤ y) && decide (y < f.height)

/-- Two fields of equal shape whose pixels agree at every in-bounds
coordinate (the only coordinates the source ever reads). -/
def Field.EqOn (f g : Field) : Prop :=
  f.width = g.width ∧ f.height = g.height ∧
  ∀ x y : ℤ, 0 ≤ x → x < f.width → 0 ≤ y → y < f.height → f.pix x y = g.pix x y

/-- One iteration of the radial sampling loop shared by the coarse needle
scan (lines 465-477) and the refinement (lines 556-563): sample the point
`(int(cx + r·cos θ), int(cy − r·sin θ))` (Y axis flipped) and, if it is
in bounds, add its brightness to the running sum and bump the valid count. -/
def rayStep (f : Field) (cx cy : ℤ) (c s : ℚ) (acc : ℚ × ℕ) (r : ℤ) : ℚ × ℕ :=
  let x := pyInt ((cx : ℚ) + (r : ℚ) * c)
  let y := pyInt ((cy : ℚ) - (r : ℚ) * s)
  if inBounds f x y then (acc.1 + f.pix x y, acc.2 + 1) else acc

/-- Brightness sum and valid-sample count of one radial ray, for the list of
radii `rs` and the cosine/sine values `c`, `s` of the ray's angle. -/
def rayAccum (f : Field) (cx cy : ℤ) (c s : ℚ) (rs : List ℤ) : ℚ × ℕ :=
  rs.foldl (rayStep f cx cy c s) (0, 0)

/-- `needle_end_radius = int(gauge_radius * 0.75)` (line 447; `0.75` is exact
in an IEEE double, so the product and truncation are exact). -/
def needleEndRadius (gaugeRadius : ℤ) : ℤ := pyInt ((gaugeRadius : ℚ) * (3 / 4))

/-- `needle_start_radius = max(5, needle_end_radius // 8)` (line 448). -/
def needleStartRadius (gaugeRadius : ℤ) : ℤ :=
  max 5 (Int.fdiv (needleEndRadius gaugeRadius) 8)

/-- The radii `range(needle_start_radius, needle_end_radius, 1)` sampled
along each coarse ray (line 465). -/
def needleRadii (gaugeRadius : ℤ) : List ℤ :=
  rangeStep (needleStartRadius gaugeRadius) (needleEndRadius gaugeRadius) 1

/-- The coarse scan angles `range(0, 360, 5)` (line 458). -/
def coarseAngles : List ℤ := rangeStep 0 360 5

/-- One iteration of the coarse angular scan (lines 458-484): score the ray
at angle `θ` and keep it when it is the first angle with any valid sample or
strictly darker (`avg_score < best_score`) than the best so far. -/
def coarseStep (cosD sinD : ℚ → ℚ) (f : Field) (cx cy : ℤ) (rs : List ℤ)
    (best : Option (ℤ × ℚ)) (θ : ℤ) : Option (ℤ × ℚ) :=
  let sv := rayAccum f cx cy (cosD (θ : ℚ)) (sinD (θ : ℚ)) rs
  if 0 < sv.2 then
    let avg := sv.1 / (sv.2 : ℚ)
    match best with
    | none => some (θ, avg)
    | some bs => if avg < bs.2 then some (θ, avg) else best
  else best

/-- The coarse angular scan: minimum-average-brightness angle (with its
score) over all coarse angles having at least one in-bounds sample, `none`
when no angle has any (this is `best_angle`/`best_score` of lines 452-484,
with `best_score` starting at `float('inf')`). -/
def coarseScan (cosD sinD : ℚ → ℚ) (f : Field) (cx cy : ℤ) (rs : List ℤ) :
    Option (ℤ × ℚ) :=
  coarseAngles.foldl (coarseStep cosD sinD f cx cy rs) none

/-- The refinement offsets `range(-8, 9)` (line 549). -/
def refineOffsets : List ℤ := (List.range 17).map (fun i => (i : ℤ) - 8)

/-- One iteration of `_refine_needle_angle`'s offset loop (lines 549-569):
angle `coarse_angle + offset * 0.5` (`0.5` exact in a double), radial samples
`range(8, radius, 2)`, the same strict-improvement update with `best_score`
starting at `float('inf')` and `best_angle` starting at the coarse angle. -/
def refineStep (cosD sinD : ℚ → ℚ) (f : Field) (cx cy coarseAngle radius : ℤ)
    (best : ℚ × Option ℚ) (off : ℤ) : ℚ × Option ℚ :=
  let θ : ℚ := (coarseAngle : ℚ) + (off : ℚ) * (1 / 2)
  let sv := rayAccum f cx cy (cosD θ) (sinD θ) (rangeStep 8 radius 2)
  if 0 < sv.2 then
    let avg := sv.1 / (sv.2 : ℚ)
    match best.2 with
    | none => (θ, some avg)
    | some bs => if avg < bs then (θ, some avg) else best
  else best

/-- Embedding of `_refine_needle_angle` (lines 540-575): returns the refined
angle; when no offset has a valid sample, the initial `best_angle`
(= the coarse angle) is returned — never absence. -/
def refineNeedleAngle (cosD sinD : ℚ → ℚ) (f : Field)
    (cx cy coarseAngle radius : ℤ) : ℚ :=
  (refineOffsets.foldl (refineStep cosD sinD f cx cy coarseAngle radius)
    ((coarseAngle : ℚ), none)).1

/-- Embedding of `_find_needle_angle_simple` (lines 433-538): coarse scan,
then refinement of the best coarse angle with `radius = needle_end_radius`;
`none` exactly when the coarse scan found no angle with a valid sample.
The diagnostic-only blocks (logging, debug images, the `best_score > 200`
warning) do not affect the returned value and are not modelled. -/
def findNeedleAngleSimple (cosD sinD : ℚ → ℚ) (f : Field)
    (cx cy gaugeRadius : ℤ) : Option ℚ :=
  match coarseScan cosD sinD f cx cy (needleRadii gaugeRadius) with
  | none => none
  | some bs =>
      some (refineNeedleAngle cosD sinD f cx cy bs.1 (needleEndRadius gaugeRadius))

/-- One iteration of `_measure_circle_edge_strength`'s sampling loop (lines
375-398): sample the inner, edge and outer rings at index `i` (no Y flip
here, matching the source) and accumulate the three sums and the valid count
only when all three points are in bounds. -/
def circleStep (cosA sinA : ℕ → ℕ → ℚ) (f : Field)
    (cx cy radius innerOff outerOff : ℤ) (numSamples : ℕ)
    (acc : ℚ × ℚ × ℚ × ℕ) (i : ℕ) : ℚ × ℚ × ℚ × ℕ :=
  let ca := cosA i numSamples
  let sa := sinA i numSamples
  let xInner := pyInt ((cx : ℚ) + ((radius - innerOff : ℤ) : ℚ) * ca)
  let yInner := pyInt ((cy : ℚ) + ((radius - innerOff : ℤ) : ℚ) * sa)
  let xEdge := pyInt ((cx : ℚ) + (radius : ℚ) * ca)
  let yEdge := pyInt ((cy : ℚ) + (radius : ℚ) * sa)
  let xOuter := pyInt ((cx : ℚ) + ((radius + outerOff : ℤ) : ℚ) * ca)
  let yOuter := pyInt ((cy : ℚ) + ((radius + outerOff : ℤ) : ℚ) * sa)
  if inBounds f xInner yInner && inBounds f xEdge yEdge && inBounds f xOuter yOuter then
    (acc.1 + f.pix xInner yInner, acc.2.1 + f.pix xEdge yEdge,
      acc.2.2.1 + f.pix xOuter yOuter, acc.2.2.2 + 1)
  else acc

/-- The accumulated `(inner_brightness_sum, edge_brightness_sum,
outer_brightness_sum, valid_samples)` of `_measure_circle_edge_strength`. -/
def circleStats (cosA sinA : ℕ → ℕ → ℚ) (f : Field)
    (cx cy radius innerOff outerOff : ℤ) (numSamples : ℕ) : ℚ × ℚ × ℚ × ℕ :=
  (List.range numSamples).foldl
    (circleStep cosA sinA f cx cy radius innerOff outerOff numSamples) (0, 0, 0, 0)

/-- The IEEE-double value of `2 * math.pi`, as an exact rational. -/
def twoPi : ℚ := 884279719003555 / 140737488355328

/-- `num_samples = max(16, int(2 * math.pi * radius))` (line 359). -/
def numSamplesFor (radius : ℤ) : ℤ := max 16 (pyInt (twoPi * (radius : ℚ)))

/-- `inner_offset = outer_offset = max(3, radius // 10)` (lines 367-368). -/
def circleOffset (radius : ℤ) : ℤ := max 3 (Int.fdiv radius 10)

/-- Embedding of `_measure_circle_edge_strength` (lines 337-431): ring
averages over the valid perimeter samples, 0 when fewer than 75% of the
triples are valid, otherwise
`max(0, (avg_inner - avg_outer) + (avg_inner - avg_edge) * 1)`. -/
def measureCircleEdgeStrength (cosA sinA : ℕ → ℕ → ℚ) (f : Field)
    (cx cy radius : ℤ) : ℚ :=
  let numSamples := numSamplesFor radius
  let st := circleStats cosA sinA f cx cy radius (circleOffset radius)
    (circleOffset radius) numSamples.toNat
  if (st.2.2.2 : ℚ) < (numSamples : ℚ) * (3 / 4) then 0
  else if st.2.2.2 = 0 then 0
  else
    let avgInner := st.1 / (st.2.2.2 : ℚ)
    let avgEdge := st.2.1 / (st.2.2.2 : ℚ)
    let avgOuter := st.2.2.1 / (st.2.2.2 : ℚ)
    let gradientScore := avgInner - avgOuter
    let edgeContrast := avgInner - avgEdge
    max 0 (gradientScore + edgeContrast * 1)

/-- The running state of `_detect_gauge_center`'s grid search:
`best_score` (init 0), `best_center` (init image center), `best_radius`
(init `min_radius`) and the collected positive-score candidate list. -/
structure CState where
  bestScore : ℚ
  bestCx : ℤ
  bestCy : ℤ
  bestRadius : ℤ
  cands : List (ℤ × ℤ × ℤ × ℚ)

/-- The radius loop body of `_detect_gauge_center` (lines 223-237): a
positive score is appended to the candidate list and, when strictly greater
than the best score, becomes the new best. -/
def radiusStepper (cosA sinA : ℕ → ℕ → ℚ) (f : Field) (cx cy : ℤ)
    (st : CState) (radius : ℤ) : CState :=
  let score := measureCircleEdgeStrength cosA sinA f cx cy radius
  if 0 < score then
    let st1 := { st with cands := st.cands ++ [(cx, cy, radius, score)] }
    if st.bestScore < score then
      { st1 with bestScore := score, bestCx := cx, bestCy := cy, bestRadius := radius }
    else st1
  else st

/-- The cx loop body (lines 216-218): centers outside the image are
skipped. -/
def cxStepper (cosA sinA : ℕ → ℕ → ℚ) (f : Field) (radii : List ℤ) (cy : ℤ)
    (st : CState) (cx : ℤ) : CState :=
  if 0 ≤ cx ∧ cx < f.width then radii.foldl (radiusStepper cosA sinA f cx cy) st
  else st

/-- The cy loop body (lines 212-214). -/
def cyStepper (cosA sinA : ℕ → ℕ → ℚ) (f : Field) (cxs radii : List ℤ)
    (st : CState) (cy : ℤ) : CState :=
  if 0 ≤ cy ∧ cy < f.height then cxs.foldl (cxStepper cosA sinA f radii cy) st
  else st

/-- Embedding of `_detect_gauge_center` (lines 163-335) as the raw tuple it
returns, encoded as a list of integers: `[final_cx, final_cy, best_radius]`
on the normal path (the module constant `USE_WEIGHTED_CENTER` is `False`, so
the weighted-average branch of lines 260-276 is dead and
`final_cx, final_cy = best_center`; the sort of line 244 and the top-20%
weights feed only that dead branch and the debug log), but the bare
two-element `[initial_cx, initial_cy]` on the no-candidates path of
line 241 — the source returns `(initial_cx, initial_cy)` there, with no
radius.  Search geometry: `0.25` and `0.45` multiples are modelled as
`1/4` and `9/20` (`0.25` is exact in a double; `int(min_dim * 0.45)` agrees
with `⌊min_dim * 9/20⌋` for every plausible dimension because the double
`0.45` exceeds 9/20 by less than 2e-17 while `min_dim * 9/20` is either an
exact integer or at least 1/20 away from one). -/
def detectGaugeCenterRaw (cosA sinA : ℕ → ℕ → ℚ) (f : Field) : List ℤ :=
  let initialCx := Int.fdiv f.width 2
  let initialCy := Int.fdiv f.height 2
  let searchRangeX := pyInt ((f.width : ℚ) * (1 / 4))
  let searchRangeY := pyInt ((f.height : ℚ) * (1 / 4))
  let minDim := min f.width f.height
  let minRadius := pyInt ((minDim : ℚ) * (1 / 4))
  let maxRadius := pyInt ((minDim : ℚ) * (9 / 20))
  let centerStep := max 2 (Int.fdiv (min searchRangeX searchRangeY) 10)
  let cys := rangeStep (initialCy - searchRangeY) (initialCy + searchRangeY + 1) centerStep
  let cxs := rangeStep (initialCx - searchRangeX) (initialCx + searchRangeX + 1) centerStep
  let radiusStep := max 2 (Int.fdiv (maxRadius - minRadius) 10)
  let radii := rangeStep minRadius (maxRadius + 1) radiusStep
  let st := cys.foldl (cyStepper cosA sinA f cxs radii)
    (CState.mk 0 initialCx initialCy minRadius [])
  match st.cands with
  | [] => [initialCx, initialCy]
  | _ :: _ => [st.bestCx, st.bestCy, st.bestRadius]

/-- Embedding of `_read_analog_gauge_simple` (lines 98-161) on an
already-grayscale field (the PIL round trip of lines 108-123 is the identity
for grayscale input).  The tuple returned by `_detect_gauge_center` is
unpacked as `center_x, center_y, gauge_radius = ...`; a tuple of any other
length raises `ValueError`, which the surrounding `except` turns into a
`None` reading — hence the wildcard branch. -/
def readAnalogGauge (cosA sinA : ℕ → ℕ → ℚ) (cosD sinD : ℚ → ℚ) (f : Field)
    (c : Calibration) : Option ℚ :=
  match detectGaugeCenterRaw cosA sinA f with
  | [cx, cy, gaugeRadius] =>
      match findNeedleAngleSimple cosD sinD f cx cy gaugeRadius with
      | none => none
      | some a => some (angleToValue c a)
  | _ => none

/-- A 12 × 12 constant-brightness field (every pixel 128): the C1 failing
input. -/
def constField : Field := Field.mk 12 12 (fun _ _ => 128)

/-- A 20 × 20 constant-brightness field used to exercise the needle scan on a
geometry whose refinement radius list is empty. -/
def uniformField : Field := Field.mk 20 20 (fun _ _ => 100)

/-- A 40 × 40 field, bright (255) everywhere except the single dark pixel
(27, 20): the C6 counterexample input. -/
def cexField : Field :=
  Field.mk 40 40 (fun x y => if x = 27 ∧ y = 20 then 0 else 255)

/-- The exact rational value of the IEEE-double computation
`math.cos(math.radians θ)` at the coarse-scan angles 0°, 5°, …, 355° and at
the refinement angles −4°, −3.5°, …, 4° (each branch value is the exact
dyadic rational denoted by the double result); 0 at angles outside the
tables (no such angle is consulted in any concrete evaluation in this
file). -/
def tblCos (theta : ℚ) : ℚ :=
  if theta = 0 then 1 else
  if theta = 5 then 4486462071114449 / 4503599627370496 else
  if theta = 10 then 8870359658994711 / 9007199254740992 else
  if theta = 15 then 8700286382685973 / 9007199254740992 else
  if theta = 20 then 2115999668407111 / 2251799813685248 else
  if theta = 25 then 8163294823962471 / 9007199254740992 else
  if theta = 30 then 7800463371553963 / 9007199254740992 else
  if theta = 35 then 7378265682839367 / 9007199254740992 else
  if theta = 40 then 6899914937159737 / 9007199254740992 else
  if theta = 45 then 6369051672525773 / 9007199254740992 else
  if theta = 50 then 5789716078925341 / 9007199254740992 else
  if theta = 55 then 5166317250038137 / 9007199254740992 else
  if theta = 60 then 4503599627370497 / 9007199254740992 else
  if theta = 65 then 7613213784381523 / 18014398509481984 else
  if theta = 70 then 6161287160138743 / 18014398509481984 else
  if theta = 75 then 291404338770025 / 1125899906842624 else
  if theta = 80 then 1564083736468707 / 9007199254740992 else
  if theta = 85 then 24532160660097 / 281474976710656 else
  if theta = 90 then 4967757600021511 / 81129638414606681695789005144064 else
  if theta = 95 then (-6280233128984839 / 72057594037927936) else
  if theta = 100 then (-782041868234353 / 4503599627370496) else
  if theta = 105 then (-2331234710160201 / 9007199254740992) else
  if theta = 110 then (-6161287160138741 / 18014398509481984) else
  if theta = 115 then (-7613213784381521 / 18014398509481984) else
  if theta = 120 then (-2251799813685247 / 4503599627370496) else
  if theta = 125 then (-5166317250038137 / 9007199254740992) else
  if theta = 130 then (-5789716078925341 / 9007199254740992) else
  if theta = 135 then (-1592262918131443 / 2251799813685248) else
  if theta = 140 then (-862489367144967 / 1125899906842624) else
  if theta = 145 then (-922283210354921 / 1125899906842624) else
  if theta = 150 then (-7800463371553963 / 9007199254740992) else
  if theta = 155 then (-8163294823962471 / 9007199254740992) else
  if theta = 160 then (-8463998673628443 / 9007199254740992) else
  if theta = 165 then (-2175071595671493 / 2251799813685248) else
  if theta = 170 then (-8870359658994711 / 9007199254740992) else
  if theta = 175 then (-4486462071114449 / 4503599627370496) else
  if theta = 180 then (-1) else
  if theta = 185 then (-4486462071114449 / 4503599627370496) else
  if theta = 190 then (-8870359658994711 / 9007199254740992) else
  if theta = 195 then (-8700286382685973 / 9007199254740992) else
  if theta = 200 then (-2115999668407111 / 2251799813685248) else
  if theta = 205 then (-1020411852995309 / 1125899906842624) else
  if theta = 210 then (-3900231685776981 / 4503599627370496) else
  if theta = 215 then (-7378265682839367 / 9007199254740992) else
  if theta = 220 then (-6899914937159737 / 9007199254740992) else
  if theta = 225 then (-3184525836262887 / 4503599627370496) else
  if theta = 230 then (-2894858039462671 / 4503599627370496) else
  if theta = 235 then (-5166317250038139 / 9007199254740992) else
  if theta = 240 then (-1125899906842625 / 2251799813685248) else
  if theta = 245 then (-3806606892190759 / 9007199254740992) else
  if theta = 250 then (-3080643580069369 / 9007199254740992) else
  if theta = 255 then (-2331234710160199 / 9007199254740992) else
  if theta = 260 then (-6256334945874825 / 36028797018963968) else
  if theta = 265 then (-785029141123105 / 9007199254740992) else
  if theta = 270 then (-3725818200016133 / 20282409603651670423947251286016) else
  if theta = 275 then 3140116564492407 / 36028797018963968 else
  if theta = 280 then 1564083736468703 / 9007199254740992 else
  if theta = 285 then 582808677540049 / 2251799813685248 else
  if theta = 290 then 3080643580069373 / 9007199254740992 else
  if theta = 295 then 3806606892190763 / 9007199254740992 else
  if theta = 300 then 4503599627370497 / 9007199254740992 else
  if theta = 305 then 645789656254767 / 1125899906842624 else
  if theta = 310 then 1447429019731335 / 2251799813685248 else
  if theta = 315 then 6369051672525771 / 9007199254740992 else
  if theta = 320 then 6899914937159735 / 9007199254740992 else
  if theta = 325 then 7378265682839365 / 9007199254740992 else
  if theta = 330 then 975057921444245 / 1125899906842624 else
  if theta = 335 then 1020411852995309 / 1125899906842624 else
  if theta = 340 then 2115999668407111 / 2251799813685248 else
  if theta = 345 then 8700286382685973 / 9007199254740992 else
  if theta = 350 then 8870359658994711 / 9007199254740992 else
  if theta = 355 then 4486462071114449 / 4503599627370496 else
  if theta = (-4) then 4492629085028347 / 4503599627370496 else
  if theta = (-7 / 2) then 4495199506238245 / 4503599627370496 else
  if theta = (-3) then 8994855201203741 / 9007199254740992 else
  if theta = (-5 / 2) then 8998626396882423 / 9007199254740992 else
  if theta = (-2) then 9001712312321383 / 9007199254740992 else
  if theta = (-3 / 2) then 9004112712516213 / 9007199254740992 else
  if theta = (-1) then 4502913707333573 / 4503599627370496 else
  if theta = (-1 / 2) then 9006856288192973 / 9007199254740992 else
  if theta = 1 / 2 then 9006856288192973 / 9007199254740992 else
  if theta = 1 then 4502913707333573 / 4503599627370496 else
  if theta = 3 / 2 then 9004112712516213 / 9007199254740992 else
  if theta = 2 then 9001712312321383 / 9007199254740992 else
  if theta = 5 / 2 then 8998626396882423 / 9007199254740992 else
  if theta = 3 then 8994855201203741 / 9007199254740992 else
  if theta = 7 / 2 then 4495199506238245 / 4503599627370496 else
  if theta = 4 then 4492629085028347 / 4503599627370496 else
  0

/-- The exact rational value of the IEEE-double computation
`math.sin(math.radians θ)` at the same angles as `tblCos`. -/
def tblSin (theta : ℚ) : ℚ :=
  if theta = 0 then 0 else
  if theta = 5 then 3140116564492417 / 36028797018963968 else
  if theta = 10 then 6256334945874825 / 36028797018963968 else
  if theta = 15 then 291404338770025 / 1125899906842624 else
  if theta = 20 then 6161287160138741 / 18014398509481984 else
  if theta = 25 then 7613213784381523 / 18014398509481984 else
  if theta = 30 then 9007199254740991 / 18014398509481984 else
  if theta = 35 then 645789656254767 / 1125899906842624 else
  if theta = 40 then 1447429019731335 / 2251799813685248 else
  if theta = 45 then 1592262918131443 / 2251799813685248 else
  if theta = 50 then 6899914937159737 / 9007199254740992 else
  if theta = 55 then 7378265682839367 / 9007199254740992 else
  if theta = 60 then 3900231685776981 / 4503599627370496 else
  if theta = 65 then 8163294823962471 / 9007199254740992 else
  if theta = 70 then 8463998673628443 / 9007199254740992 else
  if theta = 75 then 8700286382685973 / 9007199254740992 else
  if theta = 80 then 8870359658994711 / 9007199254740992 else
  if theta = 85 then 4486462071114449 / 4503599627370496 else
  if theta = 90 then 1 else
  if theta = 95 then 4486462071114449 / 4503599627370496 else
  if theta = 100 then 8870359658994711 / 9007199254740992 else
  if theta = 105 then 8700286382685973 / 9007199254740992 else
  if theta = 110 then 2115999668407111 / 2251799813685248 else
  if theta = 115 then 1020411852995309 / 1125899906842624 else
  if theta = 120 then 7800463371553963 / 9007199254740992 else
  if theta = 125 then 3689132841419683 / 4503599627370496 else
  if theta = 130 then 6899914937159737 / 9007199254740992 else
  if theta = 135 then 6369051672525773 / 9007199254740992 else
  if theta = 140 then 2894858039462671 / 4503599627370496 else
  if theta = 145 then 5166317250038135 / 9007199254740992 else
  if theta = 150 then 9007199254740991 / 18014398509481984 else
  if theta = 155 then 1903303446095381 / 4503599627370496 else
  if theta = 160 then 770160895017343 / 2251799813685248 else
  if theta = 165 then 4662469420320405 / 18014398509481984 else
  if theta = 170 then 6256334945874823 / 36028797018963968 else
  if theta = 175 then 1570058282246209 / 18014398509481984 else
  if theta = 180 then 4967757600021511 / 40564819207303340847894502572032 else
  if theta = 185 then (-3140116564492409 / 36028797018963968) else
  if theta = 190 then (-3128167472937415 / 18014398509481984) else
  if theta = 195 then (-4662469420320401 / 18014398509481984) else
  if theta = 200 then (-1540321790034685 / 4503599627370496) else
  if theta = 205 then (-475825861523845 / 1125899906842624) else
  if theta = 210 then (-4503599627370497 / 9007199254740992) else
  if theta = 215 then (-5166317250038137 / 9007199254740992) else
  if theta = 220 then (-1447429019731335 / 2251799813685248) else
  if theta = 225 then (-1592262918131443 / 2251799813685248) else
  if theta = 230 then (-862489367144967 / 1125899906842624) else
  if theta = 235 then (-7378265682839365 / 9007199254740992) else
  if theta = 240 then (-975057921444245 / 1125899906842624) else
  if theta = 245 then (-1020411852995309 / 1125899906842624) else
  if theta = 250 then (-2115999668407111 / 2251799813685248) else
  if theta = 255 then (-8700286382685973 / 9007199254740992) else
  if theta = 260 then (-8870359658994711 / 9007199254740992) else
  if theta = 265 then (-4486462071114449 / 4503599627370496) else
  if theta = 270 then (-1) else
  if theta = 275 then (-4486462071114449 / 4503599627370496) else
  if theta = 280 then (-1108794957374339 / 1125899906842624) else
  if theta = 285 then (-4350143191342987 / 4503599627370496) else
  if theta = 290 then (-8463998673628443 / 9007199254740992) else
  if theta = 295 then (-8163294823962471 / 9007199254740992) else
  if theta = 300 then (-3900231685776981 / 4503599627370496) else
  if theta = 305 then (-7378265682839367 / 9007199254740992) else
  if theta = 310 then (-3449957468579869 / 4503599627370496) else
  if theta = 315 then (-3184525836262887 / 4503599627370496) else
  if theta = 320 then (-5789716078925343 / 9007199254740992) else
  if theta = 325 then (-1291579312509535 / 2251799813685248) else
  if theta = 330 then (-1125899906842625 / 2251799813685248) else
  if theta = 335 then (-7613213784381519 / 18014398509481984) else
  if theta = 340 then (-6161287160138739 / 18014398509481984) else
  if theta = 345 then (-4662469420320399 / 18014398509481984) else
  if theta = 350 then (-6256334945874827 / 36028797018963968) else
  if theta = 355 then (-6280233128984845 / 72057594037927936) else
  if theta = (-4) then (-628310458321445 / 9007199254740992) else
  if theta = (-7 / 2) then (-8798021756822221 / 144115188075855872) else
  if theta = (-3) then (-3771203088540807 / 72057594037927936) else
  if theta = (-5 / 2) then (-6286216213909009 / 144115188075855872) else
  if theta = (-2) then (-5029547531033639 / 144115188075855872) else
  if theta = (-3 / 2) then (-7544991657282193 / 288230376151711744) else
  if theta = (-1) then (-2515156836085391 / 144115188075855872) else
  if theta = (-1 / 2) then (-5030505218395169 / 576460752303423488) else
  if theta = 1 / 2 then 5030505218395169 / 576460752303423488 else
  if theta = 1 then 2515156836085391 / 144115188075855872 else
  if theta = 3 / 2 then 7544991657282193 / 288230376151711744 else
  if theta = 2 then 5029547531033639 / 144115188075855872 else
  if theta = 5 / 2 then 6286216213909009 / 144115188075855872 else
  if theta = 3 then 3771203088540807 / 72057594037927936 else
  if theta = 7 / 2 then 8798021756822221 / 144115188075855872 else
  if theta = 4 then 628310458321445 / 9007199254740992 else
  0

/-- Normal form of `angleToValue` in terms of the exposed quantities
`normalizedOf` and `totalRangeOf` (definitional unfolding). -/
theorem angleToValue_eq (c : Calibration) (a : ℚ) :
    angleToValue c a =
      if totalRangeOf c = 0 then c.minValue
      else max c.minValue (min c.maxValue
        (normalizedOf c a / totalRangeOf c * (c.maxValue - c.minValue) + c.minValue)) := rfl

/-- At the minimum calibration boundary the normalized angle is 0. -/
theorem normalizedOf_min_boundary (c : Calibration) (a : ℚ)
    (hclk : clockAngleOf a = c.minAngleHours * 30) : normalizedOf c a = 0 := by
  simp only [normalizedOf, hclk]
  split
  · rw [if_pos (le_refl _), sub_self]
  · rw [sub_self]

/-- At the maximum calibration boundary the normalized angle equals the
computed total range (in both the wrapped and the non-wrapped branch). -/
theorem normalizedOf_max_boundary (c : Calibration) (a : ℚ)
    (hclk : clockAngleOf a = c.maxAngleHours * 30) :
    normalizedOf c a = totalRangeOf c := by
  simp only [normalizedOf, totalRangeOf, hclk]
  split
  · next hw => rw [if_neg (not_le.mpr hw)]
  · ring

/-- A fold whose step leaves the accumulator unchanged on every element of
the list leaves it unchanged altogether. -/
theorem foldl_fixed_mem {α β : Type} {f : α → β → α} {a : α} :
    ∀ l : List β, (∀ b ∈ l, f a b = a) → l.foldl f a = a := by
  intro l
  induction l with
  | nil => intro _; rfl
  | cons x t ih =>
      intro h
      rw [List.foldl_cons, h x (List.mem_cons_self x t)]
      exact ih fun b hb => h b (List.mem_cons_of_mem x hb)

/-- The sample count `num_samples = max(16, int(2πr))` is at least 16. -/
theorem numSamplesFor_ge (radius : ℤ) : 16 ≤ numSamplesFor radius := le_max_left _ _

/-- C8: the edge-strength score of every circle candidate is 0 when the
valid-sample count falls below 75% of `num_samples`, and otherwise equals
`max(0, (avgInner − avgOuter) + (avgInner − avgEdge))` where the averages
are the accumulated ring sums over the valid count; in particular the score
is always nonnegative, and it is positive only when
`2·avgInner > avgOuter + avgEdge` (a bright-inside/dark-outside transition),
which is immediate from the stated equality. -/
theorem C8_edge_strength_formula (cosA sinA : ℕ → ℕ → ℚ) (f : Field)
    (cx cy radius : ℤ) :
    (measureCircleEdgeStrength cosA sinA f cx cy radius =
      (if (((circleStats cosA sinA f cx cy radius (circleOffset radius)
              (circleOffset radius) (numSamplesFor radius).toNat).2.2.2 : ℕ) : ℚ) <
            ((numSamplesFor radius : ℤ) : ℚ) * (3 / 4) then 0
       else
        (fun st : ℚ × ℚ × ℚ × ℕ =>
          max 0 ((st.1 / (st.2.2.2 : ℚ) - st.2.2.1 / (st.2.2.2 : ℚ)) +
            (st.1 / (st.2.2.2 : ℚ) - st.2.1 / (st.2.2.2 : ℚ))))
          (circleStats cosA sinA f cx cy radius (circleOffset radius)
            (circleOffset radius) (numSamplesFor radius).toNat))) ∧
    0 ≤ measureCircleEdgeStrength cosA sinA f cx cy radius := by
  have key : measureCircleEdgeStrength cosA sinA f cx cy radius =
      (if (((circleStats cosA sinA f cx cy radius (circleOffset radius)
              (circleOffset radius) (numSamplesFor radius).toNat).2.2.2 : ℕ) : ℚ) <
            ((numSamplesFor radius : ℤ) : ℚ) * (3 / 4) then 0
       else
        (fun st : ℚ × ℚ × ℚ × ℕ =>
          max 0 ((st.1 / (st.2.2.2 : ℚ) - st.2.2.1 / (st.2.2.2 : ℚ)) +
            (st.1 / (st.2.2.2 : ℚ) - st.2.1 / (st.2.2.2 : ℚ))))
          (circleStats cosA sinA f cx cy radius (circleOffset radius)
            (circleOffset radius) (numSamplesFor radius).toNat)) := by
    simp only [measureCircleEdgeStrength]
    set st := circleStats cosA sinA f cx cy radius (circleOffset radius)
      (circleOffset radius) (numSamplesFor radius).toNat with hst
    by_cases hlt : ((st.2.2.2 : ℕ) : ℚ) < ((numSamplesFor radius : ℤ) : ℚ) * (3 / 4)
    · rw [if_pos hlt, if_pos hlt]
    · rw [if_neg hlt, if_neg hlt]
      have h16 : (16 : ℚ) ≤ ((numSamplesFor radius : ℤ) : ℚ) := by
        exact_mod_cast numSamplesFor_ge radius
      have hk : st.2.2.2 ≠ 0 := by
        intro h0
        apply hlt
        rw [h0]
        push_cast
        linarith
      rw [if_neg hk]
      ring_nf
  refine ⟨key, ?_⟩
  rw [key]
  split
  · exact le_refl 0
  · exact le_max_left _ _

/-- On a constant-brightness field every perimeter ring accumulates the same
total `v·k` over the same valid count `k`. -/
theorem circleStats_const (cosA sinA : ℕ → ℕ → ℚ) (w h : ℤ) (v : ℚ)
    (cx cy radius innerOff outerOff : ℤ) (n : ℕ) :
    ∃ k : ℕ, circleStats cosA sinA (Field.mk w h fun _ _ => v) cx cy radius
      innerOff outerOff n = (v * k, v * k, v * k, k) := by
  have H : ∀ (l : List ℕ) (k : ℕ), ∃ k' : ℕ,
      l.foldl (circleStep cosA sinA (Field.mk w h fun _ _ => v) cx cy radius
        innerOff outerOff n) (v * k, v * k, v * k, k) = (v * k', v * k', v * k', k') := by
    intro l
    induction l with
    | nil => intro k; exact ⟨k, rfl⟩
    | cons i t ih =>
        intro k
        rw [List.foldl_cons]
        have hstep : circleStep cosA sinA (Field.mk w h fun _ _ => v) cx cy radius
              innerOff outerOff n ((v * k : ℚ), (v * k : ℚ), (v * k : ℚ), k) i =
            (v * k, v * k, v * k, k) ∨
            circleStep cosA sinA (Field.mk w h fun _ _ => v) cx cy radius
              innerOff outerOff n ((v * k : ℚ), (v * k : ℚ), (v * k : ℚ), k) i =
            (v * (k + 1 : ℕ), v * (k + 1 : ℕ), v * (k + 1 : ℕ), k + 1) := by
          simp only [circleStep]
          split
          · right
            have harith : v * ((k : ℚ)) + v = v * ((k + 1 : ℕ) : ℚ) := by push_cast; ring
            rw [← harith]
          · left; rfl
        rcases hstep with hstep | hstep <;> rw [hstep]
        · exact ih k
        · exact ih (k + 1)
  obtain ⟨k', hk'⟩ := H (List.range n) 0
  refine ⟨k', ?_⟩
  simpa [circleStats] using hk'

/-- On a constant-brightness field every candidate edge-strength score is 0:
either too few valid samples, or all three ring averages coincide. -/
theorem measure_const (cosA sinA : ℕ → ℕ → ℚ) (w h : ℤ) (v : ℚ)
    (cx cy radius : ℤ) :
    measureCircleEdgeStrength cosA sinA (Field.mk w h fun _ _ => v) cx cy radius = 0 := by
  simp only [measureCircleEdgeStrength]
  obtain ⟨k, hk⟩ := circleStats_const cosA sinA w h v cx cy radius
    (circleOffset radius) (circleOffset radius) (numSamplesFor radius).toNat
  rw [hk]
  split
  · rfl
  · split
    · rfl
    · norm_num

/-- On a constant-brightness field the center-detection grid search collects
no candidates, and `_detect_gauge_center` returns the bare two-element tuple
`(initial_cx, initial_cy)` of line 241. -/
theorem detect_const (cosA sinA : ℕ → ℕ → ℚ) (w h : ℤ) (v : ℚ) :
    detectGaugeCenterRaw cosA sinA (Field.mk w h fun _ _ => v) =
      [Int.fdiv w 2, Int.fdiv h 2] := by
  have hrad : ∀ (st : CState) (cx cy radius : ℤ),
      radiusStepper cosA sinA (Field.mk w h fun _ _ => v) cx cy st radius = st := by
    intro st cx cy radius
    simp only [radiusStepper, measure_const]
    norm_num
  have hcx : ∀ (radii : List ℤ) (cy : ℤ) (st : CState) (cx : ℤ),
      cxStepper cosA sinA (Field.mk w h fun _ _ => v) radii cy st cx = st := by
    intro radii cy st cx
    simp only [cxStepper]
    rw [List.foldl_fixed' (hrad st cx cy)]
    exact ite_self st
  have hcy : ∀ (cxs radii : List ℤ) (st : CState) (cy : ℤ),
      cyStepper cosA sinA (Field.mk w h fun _ _ => v) cxs radii st cy = st := by
    intro cxs radii st cy
    simp only [cyStepper]
    rw [List.foldl_fixed' (hcx radii cy st)]
    exact ite_self st
  simp only [detectGaugeCenterRaw]
  rw [List.foldl_fixed' (hcy _ _ _)]

/-- C1 fails on the code: on a constant-brightness field (here 12 × 12, all
pixels 128) the detector finds no positive-score candidate, but instead of
the spec's fallback geometry `(w//2, h//2, min(w,h)/4)` it returns the bare
pair `(6, 6)` with no radius (line 241); unpacking it as
`center_x, center_y, gauge_radius` in `_read_analog_gauge_simple` raises
`ValueError`, which its `except` turns into a `None` reading — the reading
does become a no-reading result, for every calibration and every trig
sampling. -/
theorem C1_constant_field_fallback (cosA sinA : ℕ → ℕ → ℚ) (cosD sinD : ℚ → ℚ)
    (c : Calibration) :
    detectGaugeCenterRaw cosA sinA constField = [6, 6] ∧
    readAnalogGauge cosA sinA cosD sinD constField c = none := by
  have hd : detectGaugeCenterRaw cosA sinA constField = [6, 6] := by
    have hc := detect_const cosA sinA 12 12 128
    rw [show constField = Field.mk 12 12 (fun _ _ => (128 : ℚ)) from rfl, hc]
    decide
  exact ⟨hd, by simp only [readAnalogGauge, hd]⟩

/-- C3 fails as stated: with `minAngleHours = 0, maxAngleHours = 6,
minValue = 10, maxValue = 0` (a calibration the spec allows: it imposes no
ordering on the value bounds), the span is 180° ≠ 0 and math angle −90°
converts to the clock angle 180° = `maxAngleHours * 30`, yet the mapping
returns 10 = `minValue`, not 0 = `maxValue`: the final clamp
`max(min_value, min(max_value, v))` collapses to `minValue`. -/
theorem C3_boundary_counterexample :
    totalRangeOf (Calibration.mk 0 6 10 0) ≠ 0 ∧
    clockAngleOf (-90) = (Calibration.mk 0 6 10 0).maxAngleHours * 30 ∧
    angleToValue (Calibration.mk 0 6 10 0) (-90) ≠ (Calibration.mk 0 6 10 0).maxValue := by
  refine ⟨?_, ?_, ?_⟩ <;>
    simp only [clockAngleOf, totalRangeOf, angleToValue, pyMod] <;> norm_num

/-- C3 (amended): for every calibration with nonzero angular span, an input
whose clock angle equals `minAngleHours * 30` maps exactly to `minValue`
(unconditionally), and an input whose clock angle equals `maxAngleHours * 30`
maps exactly to `maxValue` provided `minValue ≤ maxValue`; both branches
(wrapped and non-wrapped) are covered. -/
theorem C3_boundary_laws (c : Calibration) (a : ℚ) :
    (totalRangeOf c ≠ 0 → clockAngleOf a = c.minAngleHours * 30 →
      angleToValue c a = c.minValue) ∧
    (totalRangeOf c ≠ 0 → c.minValue ≤ c.maxValue →
      clockAngleOf a = c.maxAngleHours * 30 →
      angleToValue c a = c.maxValue) := by
  constructor
  · intro htot hclk
    rw [angleToValue_eq, if_neg htot, normalizedOf_min_boundary c a hclk, zero_div,
      zero_mul, zero_add]
    rcases le_total c.minValue c.maxValue with h | h
    · rw [min_eq_right h, max_self]
    · rw [min_eq_left h, max_eq_left h]
  · intro htot hord hclk
    rw [angleToValue_eq, if_neg htot, normalizedOf_max_boundary c a hclk, div_self htot,
      one_mul, sub_add_cancel, min_self, max_eq_right hord]

/-- Witness for `C3_boundary_laws`: with the wrap-around calibration
(7, 5, 0, 6), math angle −120° hits the minimum boundary (clock 210°) and maps
to 0; math angle −60° hits the maximum boundary (clock 150°) and maps to 6. -/
theorem C3_boundary_laws_witness :
    angleToValue (Calibration.mk 7 5 0 6) (-120) = 0 ∧
    angleToValue (Calibration.mk 7 5 0 6) (-60) = 6 := by
  constructor
  · exact (C3_boundary_laws (Calibration.mk 7 5 0 6) (-120)).1
      (by simp only [totalRangeOf]; norm_num)
      (by simp only [clockAngleOf, pyMod]; norm_num)
  · exact (C3_boundary_laws (Calibration.mk 7 5 0 6) (-60)).2
      (by simp only [totalRangeOf]; norm_num) (by norm_num)
      (by simp only [clockAngleOf, pyMod]; norm_num)

/-- C4 fails as stated: with `minValue = 10 > maxValue = 0` (allowed by the
spec), the mapped value 10 does not lie within `[minValue, maxValue]` — that
interval is empty. -/
theorem C4_clamp_counterexample :
    ¬((Calibration.mk 0 6 10 0).minValue ≤ angleToValue (Calibration.mk 0 6 10 0) (-90) ∧
      angleToValue (Calibration.mk 0 6 10 0) (-90) ≤ (Calibration.mk 0 6 10 0).maxValue) := by
  simp only [angleToValue, pyMod]
  norm_num

/-- C4 (amended): for every calibration with `minValue ≤ maxValue` and every
input angle, the mapped value lies within `[minValue, maxValue]`; for
inverted bounds the clamp instead collapses to `minValue` (see C10). -/
theorem C4_clamped_to_range (c : Calibration) (a : ℚ) (hord : c.minValue ≤ c.maxValue) :
    c.minValue ≤ angleToValue c a ∧ angleToValue c a ≤ c.maxValue := by
  rw [angleToValue_eq]
  by_cases h0 : totalRangeOf c = 0
  · rw [if_pos h0]; exact ⟨le_refl _, hord⟩
  · rw [if_neg h0]; exact ⟨le_max_left _ _, max_le hord (min_le_left _ _)⟩

/-- Witness for `C4_clamped_to_range` at calibration (7, 5, 0, 6), angle 0. -/
theorem C4_clamped_to_range_witness :
    (Calibration.mk 7 5 0 6).minValue ≤ angleToValue (Calibration.mk 7 5 0 6) 0 ∧
    angleToValue (Calibration.mk 7 5 0 6) 0 ≤ (Calibration.mk 7 5 0 6).maxValue :=
  C4_clamped_to_range (Calibration.mk 7 5 0 6) 0 (by norm_num)

/-- C5: a degenerate calibration (`minAngleHours = maxAngleHours`) maps every
input angle to `minValue`: the `total_range == 0` early return fires before
the division. -/
theorem C5_degenerate_span (c : Calibration) (a : ℚ)
    (h : c.minAngleHours = c.maxAngleHours) :
    angleToValue c a = c.minValue := by
  have h0 : totalRangeOf c = 0 := by
    simp only [totalRangeOf, h]
    rw [if_neg (lt_irrefl _), sub_self]
  rw [angleToValue_eq, if_pos h0]

/-- Witness for `C5_degenerate_span` at calibration (3, 3, 2, 9), angle 42. -/
theorem C5_degenerate_span_witness :
    angleToValue (Calibration.mk 3 3 2 9) 42 = 2 :=
  C5_degenerate_span (Calibration.mk 3 3 2 9) 42 rfl

/-- C10: with inverted value bounds (`maxValue < minValue`) the mapping
returns `minValue` for every input angle: either the degenerate early return
fires, or the clamp `max(min_value, min(max_value, v))` collapses since
`min(max_value, v) ≤ max_value < min_value`. -/
theorem C10_inverted_bounds (c : Calibration) (a : ℚ) (h : c.maxValue < c.minValue) :
    angleToValue c a = c.minValue := by
  rw [angleToValue_eq]
  by_cases h0 : totalRangeOf c = 0
  · rw [if_pos h0]
  · rw [if_neg h0]
    exact max_eq_left (le_of_lt (lt_of_le_of_lt (min_le_left _ _) h))

/-- Witness for `C10_inverted_bounds` at calibration (2, 10, 10, 0), angle 30. -/
theorem C10_inverted_bounds_witness :
    angleToValue (Calibration.mk 2 10 10 0) 30 = 10 :=
  C10_inverted_bounds (Calibration.mk 2 10 10 0) 30 (by norm_num)

/-- `inBounds` in propositional form. -/
theorem inBounds_eq_true_iff (f : Field) (x y : ℤ) :
    inBounds f x y = true ↔ 0 ≤ x ∧ x < f.width ∧ 0 ≤ y ∧ y < f.height := by
  simp [inBounds, and_assoc]

/-- `inBounds` depends only on the field's shape. -/
theorem inBounds_congr {f g : Field} (hw : f.width = g.width)
    (hh : f.height = g.height) (x y : ℤ) : inBounds f x y = inBounds g x y := by
  simp [inBounds, hw, hh]

/-- One radial sample step reads only in-bounds pixels. -/
theorem rayStep_congr {f g : Field} (h : f.EqOn g) (cx cy : ℤ) (c s : ℚ)
    (acc : ℚ × ℕ) (r : ℤ) : rayStep f cx cy c s acc r = rayStep g cx cy c s acc r := by
  obtain ⟨hw, hh, hp⟩ := h
  simp only [rayStep]
  rw [inBounds_congr hw hh]
  split
  · next hbt =>
      obtain ⟨h1, h2, h3, h4⟩ := (inBounds_eq_true_iff g _ _).mp hbt
      rw [hp _ _ h1 (hw ▸ h2) h3 (hh ▸ h4)]
  · rfl

/-- A whole ray reads only in-bounds pixels. -/
theorem rayAccum_congr {f g : Field} (h : f.EqOn g) (cx cy : ℤ) (c s : ℚ)
    (rs : List ℤ) : rayAccum f cx cy c s rs = rayAccum g cx cy c s rs := by
  simp only [rayAccum]
  exact List.foldl_ext _ _ _ fun acc r _ => rayStep_congr h cx cy c s acc r

/-- One coarse-scan step reads only in-bounds pixels. -/
theorem coarseStep_congr {f g : Field} (h : f.EqOn g) (cosD sinD : ℚ → ℚ)
    (cx cy : ℤ) (rs : List ℤ) (best : Option (ℤ × ℚ)) (θ : ℤ) :
    coarseStep cosD sinD f cx cy rs best θ = coarseStep cosD sinD g cx cy rs best θ := by
  simp only [coarseStep, rayAccum_congr h]

/-- The coarse scan reads only in-bounds pixels. -/
theorem coarseScan_congr {f g : Field} (h : f.EqOn g) (cosD sinD : ℚ → ℚ)
    (cx cy : ℤ) (rs : List ℤ) :
    coarseScan cosD sinD f cx cy rs = coarseScan cosD sinD g cx cy rs := by
  simp only [coarseScan]
  exact List.foldl_ext _ _ _ fun best θ _ => coarseStep_congr h cosD sinD cx cy rs best θ

/-- One refinement step reads only in-bounds pixels. -/
theorem refineStep_congr {f g : Field} (h : f.EqOn g) (cosD sinD : ℚ → ℚ)
    (cx cy coarseAngle radius : ℤ) (best : ℚ × Option ℚ) (off : ℤ) :
    refineStep cosD sinD f cx cy coarseAngle radius best off =
      refineStep cosD sinD g cx cy coarseAngle radius best off := by
  simp only [refineStep, rayAccum_congr h]

/-- The refinement reads only in-bounds pixels. -/
theorem refineNeedleAngle_congr {f g : Field} (h : f.EqOn g) (cosD sinD : ℚ → ℚ)
    (cx cy coarseAngle radius : ℤ) :
    refineNeedleAngle cosD sinD f cx cy coarseAngle radius =
      refineNeedleAngle cosD sinD g cx cy coarseAngle radius := by
  simp only [refineNeedleAngle]
  rw [List.foldl_ext _ _ _
    fun best off _ => refineStep_congr h cosD sinD cx cy coarseAngle radius best off]

/-- Needle detection reads only in-bounds pixels. -/
theorem findNeedleAngleSimple_congr {f g : Field} (h : f.EqOn g)
    (cosD sinD : ℚ → ℚ) (cx cy R : ℤ) :
    findNeedleAngleSimple cosD sinD f cx cy R =
      findNeedleAngleSimple cosD sinD g cx cy R := by
  simp only [findNeedleAngleSimple, coarseScan_congr h]
  cases coarseScan cosD sinD g cx cy (needleRadii R) with
  | none => rfl
  | some bs => simp only [refineNeedleAngle_congr h]

/-- One perimeter sample step reads only in-bounds pixels. -/
theorem circleStep_congr {f g : Field} (h : f.EqOn g) (cosA sinA : ℕ → ℕ → ℚ)
    (cx cy radius innerOff outerOff : ℤ) (n : ℕ) (acc : ℚ × ℚ × ℚ × ℕ) (i : ℕ) :
    circleStep cosA sinA f cx cy radius innerOff outerOff n acc i =
      circleStep cosA sinA g cx cy radius innerOff outerOff n acc i := by
  obtain ⟨hw, hh, hp⟩ := h
  simp only [circleStep]
  rw [inBounds_congr hw hh, inBounds_congr hw hh, inBounds_congr hw hh]
  split
  · next hbt =>
      rw [Bool.and_eq_true, Bool.and_eq_true] at hbt
      obtain ⟨⟨hb1, hb2⟩, hb3⟩ := hbt
      obtain ⟨a1, a2, a3, a4⟩ := (inBounds_eq_true_iff g _ _).mp hb1
      obtain ⟨b1, b2, b3, b4⟩ := (inBounds_eq_true_iff g _ _).mp hb2
      obtain ⟨c1, c2, c3, c4⟩ := (inBounds_eq_true_iff g _ _).mp hb3
      rw [hp _ _ a1 (hw ▸ a2) a3 (hh ▸ a4), hp _ _ b1 (hw ▸ b2) b3 (hh ▸ b4),
        hp _ _ c1 (hw ▸ c2) c3 (hh ▸ c4)]
  · rfl

/-- The perimeter statistics read only in-bounds pixels. -/
theorem circleStats_congr {f g : Field} (h : f.EqOn g) (cosA sinA : ℕ → ℕ → ℚ)
    (cx cy radius innerOff outerOff : ℤ) (n : ℕ) :
    circleStats cosA sinA f cx cy radius innerOff outerOff n =
      circleStats cosA sinA g cx cy radius innerOff outerOff n := by
  simp only [circleStats]
  exact List.foldl_ext _ _ _
    fun acc i _ => circleStep_congr h cosA sinA cx cy radius innerOff outerOff n acc i

/-- The edge-strength score reads only in-bounds pixels. -/
theorem measureCircleEdgeStrength_congr {f g : Field} (h : f.EqOn g)
    (cosA sinA : ℕ → ℕ → ℚ) (cx cy radius : ℤ) :
    measureCircleEdgeStrength cosA sinA f cx cy radius =
      measureCircleEdgeStrength cosA sinA g cx cy radius := by
  simp only [measureCircleEdgeStrength, circleStats_congr h]

/-- The radius loop reads only in-bounds pixels. -/
theorem radiusStepper_congr {f g : Field} (h : f.EqOn g) (cosA sinA : ℕ → ℕ → ℚ)
    (cx cy : ℤ) (st : CState) (radius : ℤ) :
    radiusStepper cosA sinA f cx cy st radius = radiusStepper cosA sinA g cx cy st radius := by
  simp only [radiusStepper, measureCircleEdgeStrength_congr h]

/-- The cx loop reads only in-bounds pixels and the shared shape. -/
theorem cxStepper_congr {f g : Field} (h : f.EqOn g) (cosA sinA : ℕ → ℕ → ℚ)
    (radii : List ℤ) (cy : ℤ) (st : CState) (cx : ℤ) :
    cxStepper cosA sinA f radii cy st cx = cxStepper cosA sinA g radii cy st cx := by
  simp only [cxStepper, h.1]
  split
  · exact List.foldl_ext _ _ _ fun st' r _ => radiusStepper_congr h cosA sinA cx cy st' r
  · rfl

/-- The cy loop reads only in-bounds pixels and the shared shape. -/
theorem cyStepper_congr {f g : Field} (h : f.EqOn g) (cosA sinA : ℕ → ℕ → ℚ)
    (cxs radii : List ℤ) (st : CState) (cy : ℤ) :
    cyStepper cosA sinA f cxs radii st cy = cyStepper cosA sinA g cxs radii st cy := by
  simp only [cyStepper, h.2.1]
  split
  · exact List.foldl_ext _ _ _ fun st' cx _ => cxStepper_congr h cosA sinA radii cy st' cx
  · rfl

/-- Center detection depends only on the shape and the in-bounds pixels. -/
theorem detectGaugeCenterRaw_congr {f g : Field} (h : f.EqOn g)
    (cosA sinA : ℕ → ℕ → ℚ) :
    detectGaugeCenterRaw cosA sinA f = detectGaugeCenterRaw cosA sinA g := by
  simp only [detectGaugeCenterRaw, h.1, h.2.1]
  rw [List.foldl_ext _ _ _ fun st cy _ => cyStepper_congr h cosA sinA _ _ st cy]

/-- C9: the whole reading computation is deterministic in its inputs — two
fields of equal shape agreeing on every in-bounds pixel (the only state the
pipeline consumes, besides the immutable calibration) produce identical
detected geometry, identical needle angle for every center/radius, and an
identical final reading; there is no hidden state and no randomness in the
embedding. -/
theorem C9_determinism (cosA sinA : ℕ → ℕ → ℚ) (cosD sinD : ℚ → ℚ)
    (f g : Field) (c : Calibration) (h : f.EqOn g) :
    detectGaugeCenterRaw cosA sinA f = detectGaugeCenterRaw cosA sinA g ∧
    (∀ cx cy R : ℤ, findNeedleAngleSimple cosD sinD f cx cy R =
      findNeedleAngleSimple cosD sinD g cx cy R) ∧
    readAnalogGauge cosA sinA cosD sinD f c = readAnalogGauge cosA sinA cosD sinD g c := by
  refine ⟨detectGaugeCenterRaw_congr h cosA sinA,
    fun cx cy R => findNeedleAngleSimple_congr h cosD sinD cx cy R, ?_⟩
  simp only [readAnalogGauge, detectGaugeCenterRaw_congr h cosA sinA]
  rcases detectGaugeCenterRaw cosA sinA g with _ | ⟨cx, _ | ⟨cy, _ | ⟨r, _ | ⟨x, t⟩⟩⟩⟩
  · rfl
  · rfl
  · rfl
  · simp only [findNeedleAngleSimple_congr h cosD sinD]
  · rfl

/-- Witness for `C9_determinism`: two syntactically different but pixelwise
equal 4 × 4 fields produce the same reading. -/
theorem C9_determinism_witness :
    readAnalogGauge (fun _ _ => 0) (fun _ _ => 0) (fun _ => 0) (fun _ => 0)
      (Field.mk 4 4 fun _ _ => 7) (Calibration.mk 7 5 0 6) =
    readAnalogGauge (fun _ _ => 0) (fun _ _ => 0) (fun _ => 0) (fun _ => 0)
      (Field.mk 4 4 fun x y => (7 : ℚ) + 0 * ((x : ℚ) + (y : ℚ)))
      (Calibration.mk 7 5 0 6) :=
  (C9_determinism (fun _ _ => 0) (fun _ _ => 0) (fun _ => 0) (fun _ => 0)
    (Field.mk 4 4 fun _ _ => 7)
    (Field.mk 4 4 fun x y => (7 : ℚ) + 0 * ((x : ℚ) + (y : ℚ)))
    (Calibration.mk 7 5 0 6)
    ⟨rfl, rfl, fun x y _ _ _ _ => by ring⟩).2.2

/-- A coarse-scan step at an angle with no valid sample leaves the best
candidate unchanged. -/
theorem coarseStep_of_zero (cosD sinD : ℚ → ℚ) (f : Field) (cx cy : ℤ)
    (rs : List ℤ) (best : Option (ℤ × ℚ)) (θ : ℤ)
    (h : (rayAccum f cx cy (cosD (θ : ℚ)) (sinD (θ : ℚ)) rs).2 = 0) :
    coarseStep cosD sinD f cx cy rs best θ = best := by
  simp [coarseStep, h]

/-- A coarse-scan step at an angle with a valid sample, starting from no
candidate, selects that angle. -/
theorem coarseStep_none_of_pos (cosD sinD : ℚ → ℚ) (f : Field) (cx cy : ℤ)
    (rs : List ℤ) (θ : ℤ)
    (h : 0 < (rayAccum f cx cy (cosD (θ : ℚ)) (sinD (θ : ℚ)) rs).2) :
    coarseStep cosD sinD f cx cy rs none θ =
      some (θ, (rayAccum f cx cy (cosD (θ : ℚ)) (sinD (θ : ℚ)) rs).1 /
        ((rayAccum f cx cy (cosD (θ : ℚ)) (sinD (θ : ℚ)) rs).2 : ℚ)) := by
  simp [coarseStep, h]

/-- A coarse-scan step never drops an existing best candidate. -/
theorem coarseStep_some (cosD sinD : ℚ → ℚ) (f : Field) (cx cy : ℤ)
    (rs : List ℤ) (b : ℤ × ℚ) (θ : ℤ) :
    ∃ b', coarseStep cosD sinD f cx cy rs (some b) θ = some b' := by
  simp only [coarseStep]
  split
  · split
    · exact ⟨_, rfl⟩
    · exact ⟨_, rfl⟩
  · exact ⟨_, rfl⟩

/-- Once the coarse fold holds a candidate it holds one forever. -/
theorem coarseFold_some (cosD sinD : ℚ → ℚ) (f : Field) (cx cy : ℤ)
    (rs : List ℤ) :
    ∀ (l : List ℤ) (b : ℤ × ℚ),
      ∃ b', l.foldl (coarseStep cosD sinD f cx cy rs) (some b) = some b' := by
  intro l
  induction l with
  | nil => intro b; exact ⟨b, rfl⟩
  | cons θ t ih =>
      intro b
      rw [List.foldl_cons]
      obtain ⟨b', hb'⟩ := coarseStep_some cosD sinD f cx cy rs b θ
      rw [hb']
      exact ih b'

/-- The coarse fold yields no candidate exactly when every scanned angle has
zero valid samples. -/
theorem coarseFold_none_iff (cosD sinD : ℚ → ℚ) (f : Field) (cx cy : ℤ)
    (rs : List ℤ) :
    ∀ l : List ℤ,
      (l.foldl (coarseStep cosD sinD f cx cy rs) none = none ↔
        ∀ θ ∈ l, (rayAccum f cx cy (cosD (θ : ℚ)) (sinD (θ : ℚ)) rs).2 = 0) := by
  intro l
  induction l with
  | nil => simp
  | cons θ t ih =>
      rw [List.foldl_cons]
      by_cases h : (rayAccum f cx cy (cosD (θ : ℚ)) (sinD (θ : ℚ)) rs).2 = 0
      · rw [coarseStep_of_zero cosD sinD f cx cy rs none θ h, ih]
        simp [h]
      · rw [coarseStep_none_of_pos cosD sinD f cx cy rs θ (Nat.pos_of_ne_zero h)]
        obtain ⟨b', hb'⟩ := coarseFold_some cosD sinD f cx cy rs t _
        rw [hb']
        constructor
        · intro hfalse; cases hfalse
        · intro hall
          exact absurd (hall θ (List.mem_cons_self θ t)) h

/-- A refinement step at an offset with no valid sample leaves the best
angle unchanged. -/
theorem refineStep_of_zero (cosD sinD : ℚ → ℚ) (f : Field)
    (cx cy coarseAngle radius : ℤ) (best : ℚ × Option ℚ) (off : ℤ)
    (h : (rayAccum f cx cy (cosD ((coarseAngle : ℚ) + (off : ℚ) * (1 / 2)))
      (sinD ((coarseAngle : ℚ) + (off : ℚ) * (1 / 2))) (rangeStep 8 radius 2)).2 = 0) :
    refineStep cosD sinD f cx cy coarseAngle radius best off = best := by
  simp only [refineStep, h]
  norm_num

/-- C7: needle detection returns `none` exactly when every coarse-scan angle
(0°, 5°, …, 355°) has zero in-bounds ray samples — whenever some coarse
angle has a valid sample a final angle is returned; and a refinement in
which every offset has zero valid samples returns the coarse angle itself
rather than absence. -/
theorem C7_none_iff_no_valid_samples (cosD sinD : ℚ → ℚ) (f : Field)
    (cx cy R : ℤ) :
    (findNeedleAngleSimple cosD sinD f cx cy R = none ↔
      ∀ θ ∈ coarseAngles,
        (rayAccum f cx cy (cosD (θ : ℚ)) (sinD (θ : ℚ)) (needleRadii R)).2 = 0) ∧
    (∀ b r : ℤ, (∀ off ∈ refineOffsets,
        (rayAccum f cx cy (cosD ((b : ℚ) + (off : ℚ) * (1 / 2)))
          (sinD ((b : ℚ) + (off : ℚ) * (1 / 2))) (rangeStep 8 r 2)).2 = 0) →
      refineNeedleAngle cosD sinD f cx cy b r = (b : ℚ)) := by
  constructor
  · constructor
    · intro hn
      cases hc : coarseScan cosD sinD f cx cy (needleRadii R) with
      | none => exact (coarseFold_none_iff cosD sinD f cx cy (needleRadii R)
          coarseAngles).mp hc
      | some bs =>
          rw [findNeedleAngleSimple, hc] at hn
          cases hn
    · intro hall
      have hc : coarseScan cosD sinD f cx cy (needleRadii R) = none :=
        (coarseFold_none_iff cosD sinD f cx cy (needleRadii R) coarseAngles).mpr hall
      rw [findNeedleAngleSimple, hc]
  · intro b r hall
    have hfix : refineOffsets.foldl (refineStep cosD sinD f cx cy b r)
        ((b : ℚ), none) = ((b : ℚ), none) :=
      foldl_fixed_mem refineOffsets fun off hoff =>
        refineStep_of_zero cosD sinD f cx cy b r ((b : ℚ), none) off (hall off hoff)
    rw [refineNeedleAngle, hfix]

/-- Witness for `C7_none_iff_no_valid_samples`: with `radius = 6` the
refinement radius list `range(8, 6, 2)` is empty, every offset has zero
valid samples, and the refinement returns the coarse angle 0. -/
theorem C7_none_iff_no_valid_samples_witness :
    refineNeedleAngle (fun _ => 0) (fun _ => 0) uniformField 10 10 0 6 =
      ((0 : ℤ) : ℚ) :=
  (C7_none_iff_no_valid_samples (fun _ => 0) (fun _ => 0) uniformField 10 10 6).2 0 6
    fun _ _ => rfl

/-- Any angle selected by the coarse fold comes from the scanned list (or
from the initial accumulator). -/
theorem coarseFold_mem (cosD sinD : ℚ → ℚ) (f : Field) (cx cy : ℤ)
    (rs : List ℤ) (P : ℤ → Prop) :
    ∀ (l : List ℤ) (acc : Option (ℤ × ℚ)),
      (∀ θ s, acc = some (θ, s) → P θ) → (∀ θ ∈ l, P θ) →
      ∀ θ s, l.foldl (coarseStep cosD sinD f cx cy rs) acc = some (θ, s) → P θ := by
  intro l
  induction l with
  | nil => intro acc hacc _ θ s hfold; exact hacc θ s hfold
  | cons θ1 t ih =>
      intro acc hacc hl θ s hfold
      rw [List.foldl_cons] at hfold
      refine ih (coarseStep cosD sinD f cx cy rs acc θ1) ?_
        (fun θ' h' => hl θ' (List.mem_cons_of_mem θ1 h')) θ s hfold
      intro θ' s' hstep
      by_cases hv : 0 < (rayAccum f cx cy (cosD (θ1 : ℚ)) (sinD (θ1 : ℚ)) rs).2
      · rcases acc with _ | b
        · simp only [coarseStep] at hstep
          rw [if_pos hv] at hstep
          injection hstep with h12
          have h1 : θ1 = θ' := congrArg Prod.fst h12
          exact h1 ▸ hl θ1 (List.mem_cons_self θ1 t)
        · simp only [coarseStep] at hstep
          rw [if_pos hv] at hstep
          split at hstep
          · injection hstep with h12
            have h1 : θ1 = θ' := congrArg Prod.fst h12
            exact h1 ▸ hl θ1 (List.mem_cons_self θ1 t)
          · injection hstep with h12
            exact hacc θ' s' (congrArg some h12)
      · have h0 : (rayAccum f cx cy (cosD (θ1 : ℚ)) (sinD (θ1 : ℚ)) rs).2 = 0 :=
          Nat.eq_zero_of_not_pos hv
        rw [coarseStep_of_zero cosD sinD f cx cy rs acc θ1 h0] at hstep
        exact hacc θ' s' hstep

/-- Every coarse-scan angle lies in [0, 355]. -/
theorem coarseAngles_bound (θ : ℤ) (h : θ ∈ coarseAngles) : 0 ≤ θ ∧ θ ≤ 355 := by
  have he : coarseAngles = (List.range 72).map (fun i : ℕ => 0 + 5 * (i : ℤ)) := rfl
  rw [he, List.mem_map] at h
  obtain ⟨i, hi, rfl⟩ := h
  rw [List.mem_range] at hi
  omega

/-- Every refinement offset lies in [−8, 8]. -/
theorem refineOffsets_bound (off : ℤ) (h : off ∈ refineOffsets) :
    -8 ≤ off ∧ off ≤ 8 := by
  have he : refineOffsets = (List.range 17).map (fun i : ℕ => (i : ℤ) - 8) := rfl
  rw [he, List.mem_map] at h
  obtain ⟨i, hi, rfl⟩ := h
  rw [List.mem_range] at hi
  omega

/-- Any property holding at the coarse angle and at every offset angle holds
at the refinement's result. -/
theorem refineFold_fst (cosD sinD : ℚ → ℚ) (f : Field) (cx cy b r : ℤ)
    (P : ℚ → Prop) (hinit : P ((b : ℤ) : ℚ))
    (hoffs : ∀ off ∈ refineOffsets, P ((b : ℚ) + (off : ℚ) * (1 / 2))) :
    P (refineNeedleAngle cosD sinD f cx cy b r) := by
  rw [refineNeedleAngle]
  suffices H : ∀ l : List ℤ, (∀ off ∈ l, P ((b : ℚ) + (off : ℚ) * (1 / 2))) →
      ∀ best : ℚ × Option ℚ, P best.1 →
      P ((l.foldl (refineStep cosD sinD f cx cy b r) best).1) from
    H refineOffsets hoffs ((b : ℚ), none) hinit
  intro l
  induction l with
  | nil => intro _ best hb; exact hb
  | cons off t ih =>
      intro hl best hb
      rw [List.foldl_cons]
      refine ih (fun o ho => hl o (List.mem_cons_of_mem off ho)) _ ?_
      simp only [refineStep]
      split
      · rcases best with ⟨bang, bsc⟩
        rcases bsc with _ | s
        · exact hl off (List.mem_cons_self off t)
        · rw [apply_ite Prod.fst]
          split
          · exact hl off (List.mem_cons_self off t)
          · exact hb
      · exact hb

/-- C6 (amended): every angle returned by needle detection lies in
[−4, 360) — not [0, 360): the coarse best angle lies in [0°, 355°], and the
±4° refinement can push the result down to −4° when the coarse best is 0°
(see the counterexample), so only the lower bound of the claim must move. -/
theorem C6_needle_angle_range (cosD sinD : ℚ → ℚ) (f : Field) (cx cy R : ℤ)
    (a : ℚ) (h : findNeedleAngleSimple cosD sinD f cx cy R = some a) :
    -4 ≤ a ∧ a < 360 := by
  rw [findNeedleAngleSimple] at h
  cases hc : coarseScan cosD sinD f cx cy (needleRadii R) with
  | none => rw [hc] at h; cases h
  | some bs =>
      rw [hc] at h
      injection h with h
      have hmem : bs.1 ∈ coarseAngles := by
        rcases bs with ⟨bθ, bsc⟩
        rw [coarseScan] at hc
        exact coarseFold_mem cosD sinD f cx cy (needleRadii R) (· ∈ coarseAngles)
          coarseAngles none (fun θ s h0 => by cases h0) (fun θ hθ => hθ) bθ bsc hc
      obtain ⟨hb0, hb355⟩ := coarseAngles_bound bs.1 hmem
      have hb0q : (0 : ℚ) ≤ (bs.1 : ℚ) := by exact_mod_cast hb0
      have hb355q : ((bs.1 : ℤ) : ℚ) ≤ 355 := by exact_mod_cast hb355
      have hrange := refineFold_fst cosD sinD f cx cy bs.1 (needleEndRadius R)
        (fun x => ((bs.1 : ℤ) : ℚ) - 4 ≤ x ∧ x ≤ ((bs.1 : ℤ) : ℚ) + 4)
        ⟨by linarith, by linarith⟩
        (fun off hoff => by
          obtain ⟨ho1, ho2⟩ := refineOffsets_bound off hoff
          have ho1q : (-8 : ℚ) ≤ (off : ℚ) := by exact_mod_cast ho1
          have ho2q : ((off : ℤ) : ℚ) ≤ 8 := by exact_mod_cast ho2
          constructor <;> [linarith; linarith])
      rw [h] at hrange
      exact ⟨by linarith [hrange.1], by linarith [hrange.2]⟩

set_option maxHeartbeats 12000000 in
set_option maxRecDepth 8000 in
/-- On the uniform 20 × 20 field with the identically-zero trig sampling,
every coarse angle samples the center pixel once and the first angle 0°
wins. -/
theorem coarseScan_uniform :
    coarseScan (fun _ => 0) (fun _ => 0) uniformField 10 10 [5] = some (0, 100) := by
  norm_num [coarseScan, coarseAngles, rangeStep, coarseStep, rayAccum, rayStep, pyInt,
    inBounds, uniformField, List.foldl, List.range_succ, List.map_append,
    List.foldl_append]

/-- On the uniform field with gauge radius 8 the needle scan returns 0°:
the refinement radius list `range(8, 6, 2)` is empty so the coarse angle is
kept. -/
theorem findNeedle_uniform :
    findNeedleAngleSimple (fun _ => 0) (fun _ => 0) uniformField 10 10 8 = some 0 := by
  have hend : needleEndRadius 8 = 6 := by norm_num [needleEndRadius, pyInt]
  have hradii : needleRadii 8 = [5] := by
    rw [needleRadii, needleStartRadius, hend]
    decide
  have href : refineNeedleAngle (fun _ => 0) (fun _ => 0) uniformField 10 10 0 6 =
      ((0 : ℤ) : ℚ) := by
    have hfix := foldl_fixed_mem refineOffsets fun off _ =>
      refineStep_of_zero (fun _ => (0 : ℚ)) (fun _ => (0 : ℚ)) uniformField 10 10 0 6
        (((0 : ℤ) : ℚ), none) off rfl
    rw [refineNeedleAngle, hfix]
  simp only [findNeedleAngleSimple, hradii, hend, coarseScan_uniform, href]
  norm_num

/-- Witness for `C6_needle_angle_range` at the uniform field, geometry
(10, 10, 8): the returned angle 0 lies in [−4, 360). -/
theorem C6_needle_angle_range_witness : -4 ≤ (0 : ℚ) ∧ (0 : ℚ) < 360 :=
  C6_needle_angle_range (fun _ => 0) (fun _ => 0) uniformField 10 10 8 0
    findNeedle_uniform

/-- `needle_end_radius` for gauge radius 12 is 9. -/
theorem needleEnd_twelve : needleEndRadius 12 = 9 := by
  norm_num [needleEndRadius, pyInt]

/-- The coarse radius list for gauge radius 12 is 5, 6, 7, 8. -/
theorem needleRadii_twelve : needleRadii 12 = [5, 6, 7, 8] := by
  rw [needleRadii, needleStartRadius, needleEnd_twelve]
  decide

set_option maxHeartbeats 16000000 in
set_option maxRecDepth 8000 in
/-- On the counterexample field the coarse scan selects angle 0°, whose ray
passes through the dark pixel (27, 20) at radius 7 (average brightness
765/4; angle 355° ties at radius 8 but does not strictly improve). -/
theorem coarseScan_cex :
    coarseScan tblCos tblSin cexField 20 20 [5, 6, 7, 8] = some (0, 765 / 4) := by
  norm_num [coarseScan, coarseAngles, rangeStep, coarseStep, rayAccum, rayStep, pyInt,
    inBounds, cexField, tblCos, tblSin, List.foldl, List.range_succ, List.map_append,
    List.foldl_append]

set_option maxHeartbeats 16000000 in
set_option maxRecDepth 8000 in
/-- Refining around the coarse angle 0° on the counterexample field: the
single refinement radius 8 lands on the dark pixel (27, 20) for every
negative offset and on bright pixels for offsets ≥ 0, so the first offset
−8 (angle −4°) wins and is never strictly beaten. -/
theorem refine_cex :
    refineNeedleAngle tblCos tblSin cexField 20 20 0 9 = -4 := by
  norm_num [refineNeedleAngle, refineOffsets, refineStep, rangeStep, rayAccum, rayStep,
    pyInt, inBounds, cexField, tblCos, tblSin, List.foldl, List.range_succ,
    List.map_append, List.foldl_append]

/-- C6 fails as stated: on the 40 × 40 field that is bright except for the
single dark pixel (27, 20), with gauge geometry (20, 20, 12), needle
detection returns −4° — the coarse best is 0° and the ±4° refinement steps
below 0°, so the returned angle does not lie in [0, 360). -/
theorem C6_range_counterexample :
    findNeedleAngleSimple tblCos tblSin cexField 20 20 12 = some (-4) ∧
    ¬(0 ≤ (-4 : ℚ)) := by
  constructor
  · simp only [findNeedleAngleSimple, needleRadii_twelve, needleEnd_twelve,
      coarseScan_cex]
    show some (refineNeedleAngle tblCos tblSin cexField 20 20 0 9) = some (-4)
    rw [refine_cex]
  · norm_num

end GaugeCV
